import Mathlib

/-!
Verification of the Target product-page scraper
(`target_scraper/spiders/target_spider.py`, `target_scraper/items.py`).

The spider is a pure extraction routine: given one HTTP response (a URL and
the rendered HTML), `parse` emits one product record.  The embedding below
models the response as the URL together with the results of the fixed XPath
queries the spider issues (the HTML engine, like `lxml`, is external to the
repository and is treated as an oracle), plus an oracle for `json.loads`.
Python values that flow out of `json.loads` and into the emitted item are
modelled by `PyValue`; Python exceptions by `Except PyErr`.
-/

/-- A dynamically typed Python value, as produced by `json.loads` and stored
in the `TargetItem` fields. -/
inductive PyValue where
  | none
  | bool (b : Bool)
  | int (n : Int)
  | str (s : String)
  | list (xs : List PyValue)
  | dict (fs : List (String × PyValue))

/-- Python exceptions that the spider's code can raise. -/
inductive PyErr where
  | valueError
  | indexError
  | jsonDecodeError
  | attributeError
deriving DecidableEq

/-- Python truthiness on `PyValue`: `None`, `False`, `0`, `""`, `[]` and
an empty dict are falsy, everything else is truthy. -/
def pyTruthy : PyValue → Bool
  | PyValue.none => false
  | PyValue.bool b => b
  | PyValue.int n => n != 0
  | PyValue.str s => !s.isEmpty
  | PyValue.list xs => !xs.isEmpty
  | PyValue.dict fs => !fs.isEmpty

mutual
/-- Structural equality on `PyValue`, the embedding of Python `==` / `!=`
for the values the spider compares (line 60 of the spider). -/
def pyBeq : PyValue → PyValue → Bool
  | PyValue.none, PyValue.none => true
  | PyValue.bool x, PyValue.bool y => x == y
  | PyValue.int x, PyValue.int y => x == y
  | PyValue.str x, PyValue.str y => x == y
  | PyValue.list xs, PyValue.list ys => pyBeqL xs ys
  | PyValue.dict xs, PyValue.dict ys => pyBeqD xs ys
  | _, _ => false

def pyBeqL : List PyValue → List PyValue → Bool
  | [], [] => true
  | x :: xs, y :: ys => pyBeq x y && pyBeqL xs ys
  | _, _ => false

def pyBeqD : List (String × PyValue) → List (String × PyValue) → Bool
  | [], [] => true
  | (k, v) :: xs, (l, w) :: ys => k == l && pyBeq v w && pyBeqD xs ys
  | _, _ => false
end

/-- Lookup in a Python dict (association list), with a default. -/
def dictGetD (fs : List (String × PyValue)) (k : String) (d : PyValue) : PyValue :=
  match fs.find? (fun p => p.1 == k) with
  | some p => p.2
  | Option.none => d

/-- The embedding of Python's `x.get(key, default)`: succeeds on a dict,
raises `AttributeError` on every other value. -/
def pyGetD (v : PyValue) (k : String) (d : PyValue) : Except PyErr PyValue :=
  match v with
  | PyValue.dict fs => Except.ok (dictGetD fs k d)
  | _ => Except.error PyErr.attributeError

/-- Is the value a Python dict? -/
def PyValue.isDict : PyValue → Bool
  | PyValue.dict _ => true
  | _ => false

/-- One step of Python's `str.split(sep)` for a non-empty separator
`s0 :: srest`, on explicit character lists, with a fuel argument so that the
recursion is structural (the fuel is always at least the length of the
input, so the fallback clauses are never reached on the calls we make).
Python's split scans left to right and consumes non-overlapping separator
occurrences greedily. -/
def pySplitF (s0 : Char) (srest : List Char) : Nat → List Char → List (List Char)
  | _, [] => [[]]
  | 0, s => [s]
  | Nat.succ n, c :: rest =>
    if (s0 :: srest).isPrefixOf (c :: rest) then
      [] :: pySplitF s0 srest n (rest.drop srest.length)
    else
      match pySplitF s0 srest n rest with
      | [] => [[c]]
      | t :: ts => (c :: t) :: ts

/-- Python's `s.split(sep)` on character lists.  Python raises on an empty
separator; the spider only ever splits on non-empty literals, so the empty
case is given the vacuous value `[s]`. -/
def pySplitL (sep s : List Char) : List (List Char) :=
  match sep with
  | [] => [s]
  | s0 :: srest => pySplitF s0 srest s.length s

/-- Python's `s.split(sep)` on strings. -/
def pyStrSplit (s sep : String) : List String :=
  (pySplitL sep.data s.data).map String.mk

/-- Does `sep` occur as a contiguous subsequence of the list? -/
def containsSub (sep : List Char) : List Char → Bool
  | [] => sep.isEmpty
  | c :: rest => sep.isPrefixOf (c :: rest) || containsSub sep rest

/-- Border-freeness of a separator `sep`: no proper non-empty prefix of
`sep` is also a suffix of `sep`.  For such separators, occurrences cannot overlap, so
"the text after the last occurrence" is unambiguous. -/
def borderFreeB (sep : List Char) : Bool :=
  (List.range sep.length).all
    (fun k => decide (k = 0) || decide (sep.take k ≠ sep.drop (sep.length - k)))

/-- The characters of the URL marker (slash, dash, slash, capital A, dash)
that precedes the TCIN in a Target product URL. -/
def markerSep : List Char := ['/', '-', '/', 'A', '-']

/-- The characters of the fragment separator `"#"`. -/
def hashSep : List Char := ['#']

/-- The expression `url.split(marker)[-1].split('#')[0]` on character
lists, where marker is `markerSep` (spider lines 40 and 83; Python's `[-1]` and `[0]` are total
here because `split` never returns an empty list). -/
def extractTcinL (cs : List Char) : List Char :=
  (pySplitL hashSep ((pySplitL markerSep cs).getLastD [])).headD []

/-- The spider expression `response.url.split(marker)[-1].split('#')[0]`:
the TCIN extracted from the product URL (spider line 40, repeated verbatim at line 83). -/
def extractTcin (url : String) : String :=
  String.mk (extractTcinL url.data)

/-- Python's `s.rstrip(';')`: drop all trailing semicolons. -/
def pyRstripSemi (s : String) : String :=
  String.mk ((s.data.reverse.dropWhile (fun c => c == ';')).reverse)

/-- The `TargetItem` of `items.py`: eleven fields.  A field holds `some v`
once the spider has assigned the Python value `v` to it, `Option.none`
while it is still unassigned (a Scrapy item starts with no keys). -/
structure Item where
  product_name : Option PyValue
  categories : Option PyValue
  model_no : Option PyValue
  tcin_id : Option PyValue
  images : Option PyValue
  specifications : Option PyValue
  description : Option PyValue
  variant : Option PyValue
  price : Option PyValue
  discount_price : Option PyValue
  sellers : Option PyValue

/-- A freshly constructed `TargetItem()`: no field assigned yet. -/
def emptyItem : Item :=
  { product_name := Option.none
  , categories := Option.none
  , model_no := Option.none
  , tcin_id := Option.none
  , images := Option.none
  , specifications := Option.none
  , description := Option.none
  , variant := Option.none
  , price := Option.none
  , discount_price := Option.none
  , sellers := Option.none }

/-- The results of the fixed XPath queries `_parse_fallback` issues against
the response HTML, in source order (spider lines 76 to 138).  `.get()`
queries are `Option String` (`None` when nothing matches), `.getall()`
queries are `List String` (`[]` when nothing matches). -/
structure FallbackSelectors where
  productName : Option String
  breadcrumbs : List String
  images : List String
  specsLabels : List String
  specsValues : List String
  specsFallbackTexts : List String
  descTexts1 : List String
  descTexts2 : List String
  metaDescription : Option String
  price1 : Option String
  price2 : Option String
  price3 : Option String
  price4 : Option String
  price5 : Option String
  salePrice1 : Option String
  salePrice2 : Option String

/-- One HTTP response as the spider observes it: its URL, the result of the
XPath query for the `window.__INITIAL_STATE__` script (spider line 44), the
`json.loads` oracle (`Option.none` models a `JSONDecodeError`), and the
fallback selector results. -/
structure Response where
  url : String
  initialStateScript : Option String
  jsonLoads : String → Option PyValue
  fb : FallbackSelectors

/-- Spider line 59: `price_data.get('current_retail') or
price_data.get('formatted_current_price') or price_data.get('price')` —
Python `or` returns the first truthy operand, else the last operand. -/
def jsonPriceOf (cr fcp pr : PyValue) : PyValue :=
  if pyTruthy cr then cr else if pyTruthy fcp then fcp else pr

/-- Spider line 60: `price_data.get('current_retail_min') if
price_data.get('current_retail_min') != price_data.get('current_retail')
else None`. -/
def jsonDiscountOf (crmin cr : PyValue) : PyValue :=
  if pyBeq crmin cr then PyValue.none else crmin

/-- Spider lines 51 to 61: the item built on the successful JSON path, when
`product_data` (fields `pfs`) and `price_data` (fields `qfs`) are both
dicts, so that every `.get` on them succeeds.  `tcin_id` was assigned at
line 41 before the JSON attempt. -/
def buildJsonItem (tcin : String) (pfs qfs : List (String × PyValue)) : Item :=
  { product_name := some (dictGetD pfs "title" PyValue.none)
  , categories := some (dictGetD pfs "categories" (PyValue.list []))
  , model_no := some (dictGetD pfs "modelNumber" PyValue.none)
  , tcin_id := some (PyValue.str tcin)
  , images := some (dictGetD pfs "images" (PyValue.list []))
  , specifications := some (dictGetD pfs "specifications" (PyValue.list []))
  , description := some (dictGetD pfs "description" (PyValue.str ""))
  , variant := some (dictGetD pfs "variant" (PyValue.str ""))
  , price := some (jsonPriceOf (dictGetD qfs "current_retail" PyValue.none)
      (dictGetD qfs "formatted_current_price" PyValue.none)
      (dictGetD qfs "price" PyValue.none))
  , discount_price := some (jsonDiscountOf (dictGetD qfs "current_retail_min" PyValue.none)
      (dictGetD qfs "current_retail" PyValue.none))
  , sellers := some (PyValue.list [PyValue.str "Target"]) }

/-- Spider lines 47 to 63, the body of the `try` block: split the script
text on `'window.__INITIAL_STATE__ = '` and take element `[1]`
(`IndexError` when the separator is absent), strip and drop trailing
semicolons, `json.loads` it (`JSONDecodeError` on failure), then read
`data.get('product', {}).get('details', {})` and
`data.get('product', {}).get('price', {})` (the source calls
`data.get('product', {})` twice; both calls return the same value, shared
here as `prod`) and assign the output fields.  Each `.get` raises
`AttributeError` when its receiver is not a dict; when `details` and
`priceData` are both dicts every field read succeeds, which is the
`buildJsonItem` case. -/
def parseJsonPath (r : Response) (script tcin : String) : Except PyErr Item :=
  match (pyStrSplit script "window.__INITIAL_STATE__ = ").get? 1 with
  | Option.none => Except.error PyErr.indexError
  | some seg =>
    match r.jsonLoads (pyRstripSemi seg.trim) with
    | Option.none => Except.error PyErr.jsonDecodeError
    | some data =>
      match pyGetD data "product" (PyValue.dict []) with
      | Except.error e => Except.error e
      | Except.ok prod =>
        match pyGetD prod "details" (PyValue.dict []) with
        | Except.error e => Except.error e
        | Except.ok details =>
          match pyGetD prod "price" (PyValue.dict []) with
          | Except.error e => Except.error e
          | Except.ok priceData =>
            match details, priceData with
            | PyValue.dict pfs, PyValue.dict qfs => Except.ok (buildJsonItem tcin pfs qfs)
            | _, _ => Except.error PyErr.attributeError

/-- Truthiness of an optional string (the result of a `.get()` XPath
query): `None` and the empty string are falsy. -/
def optStrTruthy : Option String → Bool
  | some s => !s.isEmpty
  | Option.none => false

/-- Python `a or b` on two optional strings. -/
def pyOrStr (a b : Option String) : Option String :=
  if optStrTruthy a then a else b

/-- Python `x.strip() if x else None` on an optional string. -/
def stripOrNone (o : Option String) : PyValue :=
  match o with
  | some s => if s.isEmpty then PyValue.none else PyValue.str s.trim
  | Option.none => PyValue.none

/-- Python `any(d.strip() for d in ds)`: some entry is non-blank. -/
def anyNonBlank (ds : List String) : Bool :=
  ds.any (fun d => !d.trim.isEmpty)

/-- Insert a key into a Python dict under construction: overwrite the value
in place when the key exists, append otherwise. -/
def dictUpsert (fs : List (String × String)) (k v : String) : List (String × String) :=
  if fs.any (fun p => p.1 == k) then
    fs.map (fun p => if p.1 == k then (k, v) else p)
  else fs ++ [(k, v)]

/-- A Python dict comprehension over a list of key-value pairs: later
occurrences of a key overwrite earlier ones, first-insertion order. -/
def dictFromPairs (ps : List (String × String)) : List (String × String) :=
  List.foldl (fun acc p => dictUpsert acc p.1 p.2) [] ps

/-- Spider lines 119 to 133: the five-attempt price chain, each later
attempt consulted only when the current value is falsy (`None` or empty),
followed by `price.strip() if price else None`. -/
def fallbackPrice (a1 a2 a3 a4 a5 : Option String) : PyValue :=
  let p := a1
  let p := if optStrTruthy p then p else a2
  let p := if optStrTruthy p then p else a3
  let p := if optStrTruthy p then p else a4
  let p := if optStrTruthy p then p else a5
  stripOrNone p

/-- The first of a list of selector attempts that yields a value (a
non-`None`, non-empty string); `Option.none` when every attempt yields
nothing.  Spec-side description used to state the claim about
`fallbackPrice`. -/
def firstYield : List (Option String) → Option String
  | [] => Option.none
  | a :: rest => if optStrTruthy a then a else firstYield rest

/-- Spider `_parse_fallback` (lines 74 to 144): assign every field of the
item from the fallback selectors.  `tcin_id` (assigned at line 41 before
the call) and `variant` (never assigned on this path) are left untouched. -/
def parseFallback (r : Response) (it : Item) : Item :=
  let product_name : PyValue :=
    match r.fb.productName with
    | some s => PyValue.str s
    | Option.none => PyValue.none
  let categories : List String :=
    if r.fb.breadcrumbs.isEmpty then []
    else (r.fb.breadcrumbs.map String.trim).filter (fun c => !c.isEmpty)
  let specPairs := (r.fb.specsLabels.zip r.fb.specsValues).map (fun p => (p.1.trim, p.2.trim))
  let specifications0 := dictFromPairs specPairs
  let specifications1 :=
    if specifications0.isEmpty then
      dictFromPairs (r.fb.specsFallbackTexts.map (fun s => (s.trim, "")))
    else specifications0
  let dA := r.fb.descTexts1
  let dB := if dA.isEmpty || !anyNonBlank dA then r.fb.descTexts2 else dA
  let description : PyValue :=
    if dB.isEmpty || !anyNonBlank dB then
      match r.fb.metaDescription with
      | some s => if s.isEmpty then PyValue.str "" else PyValue.str s
      | Option.none => PyValue.str ""
    else PyValue.list (dB.map PyValue.str)
  { it with
    product_name := some product_name
  , categories := some (PyValue.list (categories.map PyValue.str))
  , model_no := some (PyValue.str (extractTcin r.url))
  , images := some (PyValue.list (r.fb.images.map PyValue.str))
  , specifications := some (PyValue.dict (specifications1.map (fun p => (p.1, PyValue.str p.2))))
  , description := some description
  , price := some (fallbackPrice r.fb.price1 r.fb.price2 r.fb.price3 r.fb.price4 r.fb.price5)
  , discount_price := some (stripOrNone (pyOrStr r.fb.salePrice1 r.fb.salePrice2))
  , sellers := some (PyValue.list [PyValue.str "Target"]) }

/-- The item as it stands after spider line 41: only `tcin_id` assigned. -/
def initItem (url : String) : Item :=
  { emptyItem with tcin_id := some (PyValue.str (extractTcin url)) }

/-- Spider `parse` (lines 33 to 72): assign `tcin_id` from the URL, then
try the JSON path when the `window.__INITIAL_STATE__` script is present;
the `except (json.JSONDecodeError, IndexError)` handler routes exactly
those two exceptions to `_parse_fallback`, any other exception escapes the
generator (no item is emitted); without the script, `_parse_fallback` runs
directly.  `Except.ok` is the emitted record. -/
def parse (r : Response) : Except PyErr Item :=
  match r.initialStateScript with
  | some script =>
    match parseJsonPath r script (extractTcin r.url) with
    | Except.ok it => Except.ok it
    | Except.error PyErr.jsonDecodeError => Except.ok (parseFallback r (initItem r.url))
    | Except.error PyErr.indexError => Except.ok (parseFallback r (initItem r.url))
    | Except.error e => Except.error e
  | Option.none => Except.ok (parseFallback r (initItem r.url))

/-- Spider `__init__` (lines 13 to 18): `if url: self.start_urls = [url]
else: raise ValueError(...)` — Python truthiness, so both a missing and an
empty `url` argument raise. -/
def spiderInit (url : Option String) : Except PyErr (List String) :=
  match url with
  | some u => if u.isEmpty then Except.error PyErr.valueError else Except.ok [u]
  | Option.none => Except.error PyErr.valueError


/-- A response on which every fallback selector yields nothing. -/
def emptyFb : FallbackSelectors :=
  { productName := Option.none
  , breadcrumbs := []
  , images := []
  , specsLabels := []
  , specsValues := []
  , specsFallbackTexts := []
  , descTexts1 := []
  , descTexts2 := []
  , metaDescription := Option.none
  , price1 := Option.none
  , price2 := Option.none
  , price3 := Option.none
  , price4 := Option.none
  , price5 := Option.none
  , salePrice1 := Option.none
  , salePrice2 := Option.none }

/-- The parsed `window.__INITIAL_STATE__` blob of a page whose price object
carries `formatted_current_price` and `current_retail_min` (both `$5.00`)
but no `current_retail`, and whose details object is empty: the JSON result
of `json.loads` on the embedded text. -/
def jdata : PyValue :=
  PyValue.dict [("product", PyValue.dict
    [ ("details", PyValue.dict [])
    , ("price", PyValue.dict
        [ ("formatted_current_price", PyValue.str "$5.00")
        , ("current_retail_min", PyValue.str "$5.00") ]) ])]

/-- A concrete response carrying the `jdata` state blob. -/
def jresp : Response :=
  { url := "https://www.target.com/p/widget/-/A-12345678"
  , initialStateScript := some "window.__INITIAL_STATE__ = \x7b...\x7d;"
  , jsonLoads := fun _ => some jdata
  , fb := emptyFb }

/-- A response whose embedded state parses as valid JSON but is a list, not
an object: `json.loads` succeeds and `data.get('product', \x7b\x7d)` raises. -/
def wrongShapeResp : Response :=
  { url := "https://www.target.com/p/widget/-/A-12345678"
  , initialStateScript := some "window.__INITIAL_STATE__ = [];"
  , jsonLoads := fun _ => some (PyValue.list [])
  , fb := emptyFb }

/-- A response whose embedded state is malformed JSON: `json.loads` raises
a `JSONDecodeError` on it. -/
def malformedResp : Response :=
  { url := "https://www.target.com/p/widget/-/A-12345678"
  , initialStateScript := some "window.__INITIAL_STATE__ = \x7boops;"
  , jsonLoads := fun _ => Option.none
  , fb := emptyFb }

/-- A response with no `window.__INITIAL_STATE__` script at all and no
matching fallback selectors. -/
def noScriptResp : Response :=
  { url := "https://www.target.com/p/widget/-/A-12345678"
  , initialStateScript := Option.none
  , jsonLoads := fun _ => Option.none
  , fb := emptyFb }

theorem pySplitF_ne_nil (s0 : Char) (srest : List Char) (n : Nat) (s : List Char) :
    pySplitF s0 srest n s ≠ [] := by
  match n, s with
  | _, [] => simp [pySplitF]
  | 0, c :: rest => simp [pySplitF]
  | Nat.succ n, c :: rest =>
    unfold pySplitF
    by_cases h : (s0 :: srest).isPrefixOf (c :: rest)
    · simp [h]
    · simp only [h, if_false]
      cases pySplitF s0 srest n rest <;> simp

theorem containsSub_cons_false {sep : List Char} {c : Char} {rest : List Char}
    (h : containsSub sep (c :: rest) = false) :
    sep.isPrefixOf (c :: rest) = false ∧ containsSub sep rest = false := by
  unfold containsSub at h
  exact ⟨by simpa using (Bool.or_eq_false_iff.mp h).1, (Bool.or_eq_false_iff.mp h).2⟩

theorem pySplitF_no_occ (s0 : Char) (srest : List Char) :
    ∀ (n : Nat) (s : List Char), s.length ≤ n →
      containsSub (s0 :: srest) s = false → pySplitF s0 srest n s = [s] := by
  intro n
  induction n with
  | zero =>
    intro s hs _
    cases s with
    | nil => rfl
    | cons c rest => simp at hs
  | succ n ih =>
    intro s hs hc
    cases s with
    | nil => rfl
    | cons c rest =>
      obtain ⟨h1, h2⟩ := containsSub_cons_false hc
      unfold pySplitF
      rw [h1]
      simp only [Bool.false_eq_true, if_false]
      rw [ih rest (by simp at hs; omega) h2]

theorem isPrefixOf_append_self (sep t : List Char) : sep.isPrefixOf (sep ++ t) = true := by
  rw [ List.isPrefixOf_iff_prefix]
  exact List.prefix_append sep t

theorem containsSub_occ (s0 : Char) (srest x y : List Char) :
    containsSub (s0 :: srest) (x ++ (s0 :: srest) ++ y) = true := by
  induction x with
  | nil =>
    have e : ([] : List Char) ++ (s0 :: srest) ++ y = s0 :: (srest ++ y) := by simp
    rw [e]
    show ((s0 :: srest).isPrefixOf (s0 :: (srest ++ y)) || containsSub (s0 :: srest) (srest ++ y)) = true
    have hp : (s0 :: srest).isPrefixOf ((s0 :: srest) ++ y) = true := isPrefixOf_append_self _ _
    simp only [List.cons_append] at hp
    rw [hp]
    simp
  | cons c x ih =>
    have e : (c :: x) ++ (s0 :: srest) ++ y = c :: (x ++ (s0 :: srest) ++ y) := by simp
    rw [e]
    show ((s0 :: srest).isPrefixOf (c :: (x ++ (s0 :: srest) ++ y)) || containsSub (s0 :: srest) (x ++ (s0 :: srest) ++ y)) = true
    rw [ih]
    simp

theorem pySplitF_two_le (s0 : Char) (srest : List Char) :
    ∀ (n : Nat) (s : List Char), s.length ≤ n →
      containsSub (s0 :: srest) s = true → 2 ≤ (pySplitF s0 srest n s).length := by
  intro n
  induction n with
  | zero =>
    intro s hs hc
    cases s with
    | nil => simp [containsSub] at hc
    | cons c rest => simp at hs
  | succ n ih =>
    intro s hs hc
    cases s with
    | nil => simp [containsSub] at hc
    | cons c rest =>
      unfold pySplitF
      by_cases h : (s0 :: srest).isPrefixOf (c :: rest) = true
      · rw [if_pos h]
        simp only [List.length_cons]
        have hne := pySplitF_ne_nil s0 srest n (rest.drop srest.length)
        have hlen : 1 ≤ (pySplitF s0 srest n (rest.drop srest.length)).length := by
          cases hx : pySplitF s0 srest n (rest.drop srest.length) with
          | nil => exact absurd hx hne
          | cons a as => simp
        omega
      · rw [if_neg h]
        have hc2 : containsSub (s0 :: srest) rest = true := by
          unfold containsSub at hc
          rw [Bool.or_eq_true] at hc
          rcases hc with hc | hc
          · exact absurd hc h
          · exact hc
        have h2 := ih rest (by simp at hs; omega) hc2
        cases hx : pySplitF s0 srest n rest with
        | nil => exact absurd hx (pySplitF_ne_nil s0 srest n rest)
        | cons t ts =>
          rw [hx] at h2
          simpa using h2

theorem getLastD_congr {α : Type} (l : List α) (d e : α) (h : l ≠ []) :
    l.getLastD d = l.getLastD e := by
  cases l with
  | nil => exact absurd rfl h
  | cons a as => rw [List.getLastD_cons, List.getLastD_cons]

theorem borderFreeB_spec (sep : List Char) (hbf : borderFreeB sep = true)
    (k : Nat) (hk0 : 0 < k) (hklen : k < sep.length) :
    sep.take k ≠ sep.drop (sep.length - k) := by
  have h := List.all_eq_true.mp hbf k (List.mem_range.mpr hklen)
  rw [Bool.or_eq_true] at h
  rcases h with h | h
  · exact absurd (of_decide_eq_true h) (by omega)
  · exact of_decide_eq_true h

theorem pySplitF_succ_cons (s0 : Char) (srest : List Char) (n : Nat) (c : Char) (rest : List Char) :
    pySplitF s0 srest (Nat.succ n) (c :: rest) =
      if (s0 :: srest).isPrefixOf (c :: rest) = true then
        [] :: pySplitF s0 srest n (rest.drop srest.length)
      else
        match pySplitF s0 srest n rest with
        | [] => [[c]]
        | t :: ts => (c :: t) :: ts := rfl

theorem pySplitF_last (s0 : Char) (srest : List Char)
    (hbf : borderFreeB (s0 :: srest) = true) :
    ∀ (n : Nat) (a b : List Char), (a ++ (s0 :: srest) ++ b).length ≤ n →
      containsSub (s0 :: srest) b = false →
      (pySplitF s0 srest n (a ++ (s0 :: srest) ++ b)).getLastD [] = b := by
  intro n
  induction n with
  | zero =>
    intro a b hl _
    simp [List.length_append] at hl
  | succ n ih =>
    intro a b hl hc
    by_cases hp : (s0 :: srest).isPrefixOf (a ++ (s0 :: srest) ++ b) = true
    · have hpre : (s0 :: srest) <+: (a ++ (s0 :: srest) ++ b) :=
        List.isPrefixOf_iff_prefix.mp hp
      by_cases hsa : (s0 :: srest) <+: a
      · -- the separator is a prefix of a: peel it off and recurse
        obtain ⟨a2, ha⟩ := hsa
        have e : a ++ (s0 :: srest) ++ b
            = s0 :: (srest ++ (a2 ++ (s0 :: srest) ++ b)) := by
          rw [← ha]
          simp [List.append_assoc]
        rw [e, pySplitF_succ_cons]
        have hp2 : (s0 :: srest).isPrefixOf
            (s0 :: (srest ++ (a2 ++ (s0 :: srest) ++ b))) = true := by
          have h3 := isPrefixOf_append_self (s0 :: srest) (a2 ++ (s0 :: srest) ++ b)
          simp only [List.cons_append] at h3; exact h3
        rw [if_pos hp2, List.drop_left srest _, List.getLastD_cons]
        apply ih a2 b ?_ hc
        have hle := congrArg List.length e
        simp only [List.length_append, List.length_cons] at hle hl ⊢
        omega
      · -- a is a proper prefix of the separator
        have hpa : a <+: (a ++ (s0 :: srest) ++ b) := by
          rw [List.append_assoc]
          exact List.prefix_append a _
        have halen : a.length < (s0 :: srest).length := by
          by_contra hcon
          exact hsa (List.prefix_of_prefix_length_le hpre hpa (by omega))
        have has : a <+: (s0 :: srest) :=
          List.prefix_of_prefix_length_le hpa hpre (by omega)
        obtain ⟨t, hat⟩ := has
        have htne : t ≠ [] := by
          intro h0
          subst h0
          simp only [List.append_nil] at hat
          exact hsa (hat ▸ List.prefix_rfl)
        cases a with
        | nil =>
          -- a = []: the input is sep ++ b, one separator hit then no occurrence
          have e : ([] : List Char) ++ (s0 :: srest) ++ b = s0 :: (srest ++ b) := by simp
          rw [e, pySplitF_succ_cons]
          have hp2 : (s0 :: srest).isPrefixOf (s0 :: (srest ++ b)) = true := by
            have h3 := isPrefixOf_append_self (s0 :: srest) b
            simp only [List.cons_append] at h3; exact h3
          rw [if_pos hp2, List.drop_left srest b, List.getLastD_cons]
          rw [pySplitF_no_occ s0 srest n b (by simp [List.length_append] at hl ⊢; omega) hc]
          rfl
        | cons d a2 =>
          -- 0 < a.length < sep.length: t is both a prefix and a suffix of sep
          exfalso
          obtain ⟨u, hu⟩ := hpre
          rw [List.append_assoc] at hu
          have hu2 : (d :: a2) ++ (t ++ u) = (d :: a2) ++ ((s0 :: srest) ++ b) := by
            rw [← List.append_assoc, hat]
            exact hu
          have htu : t ++ u = (s0 :: srest) ++ b := List.append_cancel_left hu2
          have htpre : t <+: (s0 :: srest) ++ b := ⟨u, htu⟩
          have htsep : t <+: (s0 :: srest) := by
            apply List.prefix_of_prefix_length_le htpre (List.prefix_append _ b)
            have := congrArg List.length hat
            simp only [List.length_append] at this
            omega
          have htake : t = (s0 :: srest).take t.length := List.prefix_iff_eq_take.mp htsep
          have hdrop : (s0 :: srest).drop (d :: a2).length = t := by
            rw [← hat]
            exact List.drop_left (d :: a2) t
          have hlen : srest.length + 1 = a2.length + 1 + t.length := by
            have h4 := congrArg List.length hat
            simp only [List.length_append, List.length_cons] at h4
            omega
          have hb := borderFreeB_spec (s0 :: srest) hbf t.length
            (by cases t with | nil => exact absurd rfl htne | cons x xs => simp)
            (by simp only [List.length_cons]; omega)
          rw [show (s0 :: srest).length - t.length = (d :: a2).length by
            simp only [List.length_cons]; omega] at hb
          exact hb (by rw [← htake, hdrop])
    · -- the separator is not a prefix: a is nonempty, peel one character
      cases a with
      | nil =>
        exfalso
        apply hp
        have h3 := isPrefixOf_append_self (s0 :: srest) b
        simp only [List.cons_append] at h3; exact h3
      | cons c a2 =>
        have e : (c :: a2) ++ (s0 :: srest) ++ b = c :: (a2 ++ (s0 :: srest) ++ b) := by simp
        rw [e] at hp ⊢
        rw [pySplitF_succ_cons]
        rw [if_neg hp]
        have h2le := pySplitF_two_le s0 srest n (a2 ++ (s0 :: srest) ++ b)
          (by simp [List.length_append] at hl ⊢; omega)
          (containsSub_occ s0 srest a2 b)
        have hih := ih a2 b (by simp [List.length_append] at hl ⊢; omega) hc
        cases hx : pySplitF s0 srest n (a2 ++ (s0 :: srest) ++ b) with
        | nil => exact absurd hx (pySplitF_ne_nil s0 srest n _)
        | cons t ts =>
          rw [hx] at h2le hih
          have hts : ts ≠ [] := by
            cases ts with
            | nil => simp at h2le
            | cons u us => simp
          rw [List.getLastD_cons] at hih
          rw [List.getLastD_cons]
          rw [getLastD_congr ts (c :: t) t hts]
          exact hih

theorem pySplitF_head (s0 : Char) :
    ∀ (n : Nat) (b c : List Char), (b ++ s0 :: c).length ≤ n →
      containsSub [s0] b = false →
      (pySplitF s0 [] n (b ++ s0 :: c)).headD [] = b := by
  intro n
  induction n with
  | zero =>
    intro b c hl _
    simp [List.length_append] at hl
  | succ n ih =>
    intro b c hl hc
    cases b with
    | nil =>
      have e : ([] : List Char) ++ s0 :: c = s0 :: c := by simp
      rw [e, pySplitF_succ_cons]
      have hp2 : [s0].isPrefixOf (s0 :: c) = true := by
        have h3 := isPrefixOf_append_self [s0] c
        simp only [List.cons_append, List.nil_append] at h3
        exact h3
      rw [if_pos hp2]
      rfl
    | cons d b2 =>
      obtain ⟨h1, h2⟩ := containsSub_cons_false hc
      have e : (d :: b2) ++ s0 :: c = d :: (b2 ++ s0 :: c) := by simp
      rw [e, pySplitF_succ_cons]
      have hp3 : [s0].isPrefixOf (d :: (b2 ++ s0 :: c)) = false := by
        cases hq : [s0].isPrefixOf (d :: (b2 ++ s0 :: c)) with
        | false => rfl
        | true =>
          exfalso
          rw [ List.isPrefixOf_iff_prefix] at hq
          obtain ⟨t, ht⟩ := hq
          simp only [List.cons_append, List.cons.injEq] at ht
          have : [s0].isPrefixOf (d :: b2) = true := by
            rw [ List.isPrefixOf_iff_prefix]
            exact ⟨b2, by simp [ht.1]⟩
          rw [this] at h1
          exact Bool.noConfusion h1
      rw [if_neg (by rw [hp3]; exact Bool.false_ne_true)]
      have hih := ih b2 c (by simp [List.length_append] at hl ⊢; omega) h2
      cases hx : pySplitF s0 [] n (b2 ++ s0 :: c) with
      | nil => exact absurd hx (pySplitF_ne_nil s0 [] n _)
      | cons t ts =>
        rw [hx] at hih
        simp only [List.headD_cons] at hih ⊢
        rw [hih]

theorem pySplitL_cons (s0 : Char) (srest s : List Char) :
    pySplitL (s0 :: srest) s = pySplitF s0 srest s.length s := rfl

theorem markerSep_eq : markerSep = '/' :: ['-', '/', 'A', '-'] := rfl

theorem hashSep_eq : hashSep = '#' :: [] := rfl

theorem extractTcin_marker_nohash (a b : String)
    (hm : containsSub markerSep b.data = false)
    (hh : containsSub hashSep b.data = false) :
    extractTcin (a ++ "/-/A-" ++ b) = b := by
  have hd : (a ++ "/-/A-" ++ b).data = a.data ++ markerSep ++ b.data := by
    rw [String.data_append, String.data_append]
    rfl
  unfold extractTcin extractTcinL
  rw [hd]
  rw [markerSep_eq] at hm ⊢
  rw [pySplitL_cons]
  rw [pySplitF_last '/' ['-', '/', 'A', '-'] (by decide) _ a.data b.data (Nat.le_refl _) hm]
  rw [hashSep_eq] at hh ⊢
  rw [pySplitL_cons]
  rw [pySplitF_no_occ '#' [] _ b.data (Nat.le_refl _) hh]
  rfl

theorem extractTcin_marker_hash (a b c : String)
    (hm : containsSub markerSep (b.data ++ '#' :: c.data) = false)
    (hh : containsSub hashSep b.data = false) :
    extractTcin (a ++ "/-/A-" ++ b ++ "#" ++ c) = b := by
  have hd : (a ++ "/-/A-" ++ b ++ "#" ++ c).data
      = a.data ++ markerSep ++ (b.data ++ '#' :: c.data) := by
    rw [String.data_append, String.data_append, String.data_append, String.data_append]
    show a.data ++ markerSep ++ b.data ++ ['#'] ++ c.data
        = a.data ++ markerSep ++ (b.data ++ '#' :: c.data)
    simp [List.append_assoc]
  unfold extractTcin extractTcinL
  rw [hd]
  rw [markerSep_eq] at hm ⊢
  rw [pySplitL_cons]
  rw [pySplitF_last '/' ['-', '/', 'A', '-'] (by decide) _ a.data (b.data ++ '#' :: c.data) (Nat.le_refl _) hm]
  rw [hashSep_eq] at hh ⊢
  rw [pySplitL_cons]
  rw [pySplitF_head '#' _ b.data c.data (Nat.le_refl _) hh]

mutual
theorem pyBeq_refl : ∀ v, pyBeq v v = true
  | PyValue.none => rfl
  | PyValue.bool x => by simp [pyBeq]
  | PyValue.int x => by simp [pyBeq]
  | PyValue.str x => by simp [pyBeq]
  | PyValue.list xs => by simp [pyBeq, pyBeqL_refl xs]
  | PyValue.dict xs => by simp [pyBeq, pyBeqD_refl xs]

theorem pyBeqL_refl : ∀ xs, pyBeqL xs xs = true
  | [] => rfl
  | x :: xs => by simp [pyBeqL, pyBeq_refl x, pyBeqL_refl xs]

theorem pyBeqD_refl : ∀ xs, pyBeqD xs xs = true
  | [] => rfl
  | (k, v) :: xs => by simp [pyBeqD, pyBeq_refl v, pyBeqD_refl xs]
end

/-- When the JSON path succeeds, the item it returns is `buildJsonItem`
for the tcin it was given and some pair of dicts. -/
theorem parseJsonPath_ok (r : Response) (script tcin : String) (it : Item)
    (h : parseJsonPath r script tcin = Except.ok it) :
    ∃ pfs qfs, it = buildJsonItem tcin pfs qfs := by
  unfold parseJsonPath at h
  split at h
  · exact absurd h (by simp)
  · split at h
    · exact absurd h (by simp)
    · split at h
      · exact absurd h (by simp)
      · split at h
        · exact absurd h (by simp)
        · split at h
          · exact absurd h (by simp)
          · split at h
            · exact ⟨_, _, (Except.ok.inj h).symm⟩
            · exact absurd h (by simp)

/-- The fallback `_parse_fallback` never touches `tcin_id` or `variant`. -/
theorem parseFallback_keeps (r : Response) (it : Item) :
    (parseFallback r it).tcin_id = it.tcin_id ∧ (parseFallback r it).variant = it.variant :=
  ⟨rfl, rfl⟩

/-- Counterexample to claim C1: on `jresp` the JSON path emits a record
whose `discount_price` is non-null and exactly equals its `price` (both
are the string `$5.00`), because line 60 compares `current_retail_min`
against `current_retail` (absent here) and not against the price actually
chosen at line 59 (`formatted_current_price`). -/
theorem claim_C1_counterexample :
    Except.map Item.price (parse jresp) = Except.ok (some (PyValue.str "$5.00"))
    ∧ Except.map Item.discount_price (parse jresp) = Except.ok (some (PyValue.str "$5.00"))
    ∧ (some (PyValue.str "$5.00") : Option PyValue) ≠ some PyValue.none := by
  refine ⟨rfl, rfl, ?_⟩
  intro h
  exact PyValue.noConfusion (Option.some.inj h)

/-- Claim C1 (amended): in the JSON path, whenever the price is taken from
`current_retail` (it is present and truthy), a non-null `discount_price`
differs from the emitted `price`; when the price falls back to
`formatted_current_price` or `price`, or in the HTML-fallback path, the
emitted discount price may coincide with the price. -/
theorem claim_C1 (tcin : String) (pfs qfs : List (String × PyValue))
    (hcr : pyTruthy (dictGetD qfs "current_retail" PyValue.none) = true)
    (hne : (buildJsonItem tcin pfs qfs).discount_price ≠ some PyValue.none) :
    (buildJsonItem tcin pfs qfs).discount_price ≠ (buildJsonItem tcin pfs qfs).price := by
  have hd : (buildJsonItem tcin pfs qfs).discount_price
      = some (jsonDiscountOf (dictGetD qfs "current_retail_min" PyValue.none)
          (dictGetD qfs "current_retail" PyValue.none)) := rfl
  have hp : (buildJsonItem tcin pfs qfs).price
      = some (jsonPriceOf (dictGetD qfs "current_retail" PyValue.none)
          (dictGetD qfs "formatted_current_price" PyValue.none)
          (dictGetD qfs "price" PyValue.none)) := rfl
  rw [hd, hp]
  rw [hd] at hne
  unfold jsonDiscountOf at hne ⊢
  by_cases hb : pyBeq (dictGetD qfs "current_retail_min" PyValue.none)
      (dictGetD qfs "current_retail" PyValue.none) = true
  · rw [if_pos hb] at hne
    exact absurd rfl hne
  · rw [if_neg hb]
    unfold jsonPriceOf
    rw [if_pos hcr]
    intro heq
    rw [Option.some.inj heq] at hb
    exact hb (pyBeq_refl _)

/-- Witness for claim C1 at a concrete price object: `current_retail` is
`$9.99`, `current_retail_min` is `$7.99`, and the emitted discount price
differs from the emitted price. -/
theorem claim_C1_witness :
    (buildJsonItem "12345678" []
        [ ("current_retail", PyValue.str "$9.99")
        , ("current_retail_min", PyValue.str "$7.99") ]).discount_price
    ≠ (buildJsonItem "12345678" []
        [ ("current_retail", PyValue.str "$9.99")
        , ("current_retail_min", PyValue.str "$7.99") ]).price :=
  claim_C1 "12345678" []
    [ ("current_retail", PyValue.str "$9.99")
    , ("current_retail_min", PyValue.str "$7.99") ]
    rfl
    (by intro h; exact PyValue.noConfusion (Option.some.inj h))

/-- Counterexample to claim C2: `wrongShapeResp` carries the
`window.__INITIAL_STATE__` script and its embedded JSON parses (to a JSON
array), but the array cannot be mapped to the output fields:
`data.get('product', ...)` raises an `AttributeError`, which the handler
at line 64 (only `JSONDecodeError` and `IndexError`) does not catch, so
the exception escapes `parse` and no record is emitted. -/
theorem claim_C2_counterexample :
    wrongShapeResp.initialStateScript.isSome = true
    ∧ parse wrongShapeResp = Except.error PyErr.attributeError :=
  ⟨rfl, rfl⟩

/-- Claim C2 (amended): when the script is present and the JSON attempt
fails with one of the two caught exceptions, `JSONDecodeError` (malformed
embedded JSON) or `IndexError` (missing assignment separator), `parse`
recovers locally by running the HTML fallback and still emits a record;
an attempt that fails because well-formed JSON cannot be mapped to the
output fields instead escapes `parse` uncaught. -/
theorem claim_C2 (r : Response) (s : String)
    (hs : r.initialStateScript = some s)
    (e : PyErr) (he : parseJsonPath r s (extractTcin r.url) = Except.error e)
    (hee : e = PyErr.jsonDecodeError ∨ e = PyErr.indexError) :
    parse r = Except.ok (parseFallback r (initItem r.url)) := by
  have hp : parse r = (match parseJsonPath r s (extractTcin r.url) with
      | Except.ok it => Except.ok it
      | Except.error PyErr.jsonDecodeError => Except.ok (parseFallback r (initItem r.url))
      | Except.error PyErr.indexError => Except.ok (parseFallback r (initItem r.url))
      | Except.error e => Except.error e) := by
    unfold parse
    rw [hs]
  rw [hp, he]
  rcases hee with h | h <;> subst h <;> rfl

/-- Witness for claim C2: `malformedResp`, whose embedded JSON fails to
decode, is still parsed into an emitted record via the fallback. -/
theorem claim_C2_witness :
    parse malformedResp = Except.ok (parseFallback malformedResp (initItem malformedResp.url)) :=
  claim_C2 malformedResp "window.__INITIAL_STATE__ = \x7boops;" rfl
    PyErr.jsonDecodeError rfl (Or.inl rfl)

/-- Counterexample to claim C3: on `jresp` the JSON path emits a record
whose `specifications` field is the empty list (the default at line 55 is
`[]`, and `product.details` has no `specifications` key), not a mapping of
label to value. -/
theorem claim_C3_counterexample :
    Except.map Item.specifications (parse jresp) = Except.ok (some (PyValue.list []))
    ∧ PyValue.isDict (PyValue.list []) = false :=
  ⟨rfl, rfl⟩

/-- Claim C3 (amended): in the HTML-fallback path `specifications` is
always a dict mapping label strings to value strings; in the JSON path it
is taken verbatim from `product.details.specifications` with the list `[]`
as default, with no dict guarantee. -/
theorem claim_C3 :
    (∀ (r : Response) (it0 : Item),
      PyValue.isDict (((parseFallback r it0).specifications).getD PyValue.none) = true)
    ∧ (∀ (tcin : String) (pfs qfs : List (String × PyValue)),
      (buildJsonItem tcin pfs qfs).specifications
        = some (dictGetD pfs "specifications" (PyValue.list []))) :=
  ⟨fun _ _ => rfl, fun _ _ _ => rfl⟩

/-- Counterexample to claim C5: constructing the spider with the empty
string as its `url` argument provides a URL argument, yet the constructor
raises `ValueError`, because line 15 tests Python truthiness (`if url:`)
rather than presence. -/
theorem claim_C5_counterexample :
    spiderInit (some "") = Except.error PyErr.valueError
    ∧ (some "" : Option String) ≠ Option.none :=
  ⟨rfl, by simp⟩

/-- Claim C5 (amended): construction raises `ValueError` exactly when the
`url` argument is absent or the empty string; for any non-empty URL it
succeeds with `start_urls` the one-element list holding that URL. -/
theorem claim_C5 (url : Option String) :
    (spiderInit url = Except.error PyErr.valueError ↔ url = Option.none ∨ url = some "")
    ∧ (∀ u : String, url = some u → u ≠ "" → spiderInit url = Except.ok [u]) := by
  constructor
  · cases url with
    | none => exact ⟨fun _ => Or.inl rfl, fun _ => rfl⟩
    | some u =>
      by_cases hu : u = ""
      · subst hu
        exact ⟨fun _ => Or.inr rfl, fun _ => rfl⟩
      · have hok : spiderInit (some u) = Except.ok [u] := by
          show (if u.isEmpty then Except.error PyErr.valueError else Except.ok [u]) = Except.ok [u]
          rw [if_neg (by simpa [String.isEmpty_iff] using hu)]
        rw [hok]
        constructor
        · intro h
          exact absurd h (by simp)
        · intro h
          rcases h with h | h
          · exact absurd h (by simp)
          · exact absurd (Option.some.inj h) hu
  · intro u hu hne
    subst hu
    show (if u.isEmpty then Except.error PyErr.valueError else Except.ok [u]) = Except.ok [u]
    rw [if_neg (by simpa [String.isEmpty_iff] using hne)]

/-- Witness for claim C5: a concrete URL constructs successfully with a
singleton `start_urls`. -/
theorem claim_C5_witness :
    spiderInit (some "https://www.target.com/p/widget/-/A-12345678")
      = Except.ok ["https://www.target.com/p/widget/-/A-12345678"] :=
  (claim_C5 (some "https://www.target.com/p/widget/-/A-12345678")).2
    "https://www.target.com/p/widget/-/A-12345678" rfl (by decide)

/-- Claim C9: extraction is deterministic and idempotent — two responses
that agree on the URL, the state-script query result, the `json.loads`
oracle and every fallback selector result (that is, on everything derived
from the URL and the HTML text) are parsed to the same outcome, so
repeated runs of `parse` over a fixed response emit identical records. -/
theorem claim_C9 (r s : Response)
    (h1 : r.url = s.url)
    (h2 : r.initialStateScript = s.initialStateScript)
    (h3 : r.jsonLoads = s.jsonLoads)
    (h4 : r.fb = s.fb) :
    parse r = parse s := by
  cases r with
  | mk u i j f =>
    cases s with
    | mk u2 i2 j2 f2 =>
      simp only at h1 h2 h3 h4
      subst h1
      subst h2
      subst h3
      subst h4
      rfl

/-- Witness for claim C9 at the concrete response `jresp`. -/
theorem claim_C9_witness : parse jresp = parse jresp :=
  claim_C9 jresp jresp rfl rfl rfl rfl

/-- Claim C10: on the HTML-fallback path the emitted record's `model_no`
always equals its `tcin_id`, and both equal the TCIN computed from the URL,
because line 83 repeats the URL-splitting expression of line 40 instead of
reading any model-number markup; when no state script is present, `parse`
emits exactly this fallback record. -/
theorem claim_C10 (r : Response) :
    (parseFallback r (initItem r.url)).model_no = (parseFallback r (initItem r.url)).tcin_id
    ∧ (parseFallback r (initItem r.url)).model_no = some (PyValue.str (extractTcin r.url))
    ∧ (r.initialStateScript = Option.none →
        parse r = Except.ok (parseFallback r (initItem r.url))) := by
  refine ⟨rfl, rfl, ?_⟩
  intro h
  unfold parse
  rw [h]

/-- Witness for claim C10 at the concrete response `noScriptResp`. -/
theorem claim_C10_witness :
    parse noScriptResp = Except.ok (parseFallback noScriptResp (initItem noScriptResp.url)) :=
  (claim_C10 noScriptResp).2.2 rfl

/-- Claim C7: in the JSON path the emitted `price` is exactly the Python
`or`-chain over `current_retail`, `formatted_current_price` and `price`
(line 59): `current_retail` when truthy, else `formatted_current_price`
when truthy, else `price`; and the result is `None` only when all three
are absent or falsy. -/
theorem claim_C7 :
    (∀ (tcin : String) (pfs qfs : List (String × PyValue)),
      (buildJsonItem tcin pfs qfs).price
        = some (jsonPriceOf (dictGetD qfs "current_retail" PyValue.none)
            (dictGetD qfs "formatted_current_price" PyValue.none)
            (dictGetD qfs "price" PyValue.none)))
    ∧ (∀ cr fcp pr : PyValue,
      (pyTruthy cr = true → jsonPriceOf cr fcp pr = cr)
      ∧ (pyTruthy cr = false → pyTruthy fcp = true → jsonPriceOf cr fcp pr = fcp)
      ∧ (pyTruthy cr = false → pyTruthy fcp = false → jsonPriceOf cr fcp pr = pr)
      ∧ (jsonPriceOf cr fcp pr = PyValue.none →
          pyTruthy cr = false ∧ pyTruthy fcp = false ∧ pyTruthy pr = false)) := by
  refine ⟨fun _ _ _ => rfl, fun cr fcp pr => ⟨?_, ?_, ?_, ?_⟩⟩
  · intro h
    unfold jsonPriceOf
    rw [if_pos h]
  · intro h1 h2
    unfold jsonPriceOf
    rw [if_neg (by simp [h1]), if_pos h2]
  · intro h1 h2
    unfold jsonPriceOf
    rw [if_neg (by simp [h1]), if_neg (by simp [h2])]
  · intro h
    unfold jsonPriceOf at h
    by_cases h1 : pyTruthy cr = true
    · rw [if_pos h1] at h
      rw [h] at h1
      exact absurd h1 (by simp [pyTruthy])
    · by_cases h2 : pyTruthy fcp = true
      · rw [if_neg h1, if_pos h2] at h
        rw [h] at h2
        exact absurd h2 (by simp [pyTruthy])
      · refine ⟨by simpa using h1, by simpa using h2, ?_⟩
        rw [if_neg h1, if_neg h2] at h
        rw [h]
        rfl

/-- Witness for claim C7: concrete evaluations of the priority chain. -/
theorem claim_C7_witness :
    jsonPriceOf (PyValue.str "$3.00") (PyValue.str "$4.00") PyValue.none = PyValue.str "$3.00"
    ∧ jsonPriceOf PyValue.none (PyValue.str "$4.00") PyValue.none = PyValue.str "$4.00"
    ∧ jsonPriceOf PyValue.none (PyValue.str "") (PyValue.str "$2.00") = PyValue.str "$2.00"
    ∧ (pyTruthy PyValue.none = false ∧ pyTruthy (PyValue.str "") = false
        ∧ pyTruthy PyValue.none = false) :=
  ⟨(claim_C7.2 (PyValue.str "$3.00") (PyValue.str "$4.00") PyValue.none).1 rfl
  , (claim_C7.2 PyValue.none (PyValue.str "$4.00") PyValue.none).2.1 rfl rfl
  , (claim_C7.2 PyValue.none (PyValue.str "") (PyValue.str "$2.00")).2.2.1 rfl rfl
  , (claim_C7.2 PyValue.none (PyValue.str "") PyValue.none).2.2.2 rfl⟩

/-- A falsy selector result (absent, or the empty string) strips to `None`. -/
theorem stripOrNone_falsy (o : Option String) (h : optStrTruthy o = false) :
    stripOrNone o = PyValue.none := by
  cases o with
  | none => rfl
  | some s =>
    have hs : s.isEmpty = true := by simpa [optStrTruthy] using h
    show (if s.isEmpty = true then PyValue.none else PyValue.str s.trim) = PyValue.none
    rw [if_pos hs]

/-- An absent selector result strips to `None`. -/
theorem stripOrNone_none : stripOrNone Option.none = PyValue.none := rfl

/-- Claim C8: the fallback price is a fixed five-attempt chain — the
emitted `price` equals the stripped result of the first attempt that
yields a value (`None` when all five yield nothing), and once some attempt
yields a value the later attempts cannot influence the result. -/
theorem claim_C8 :
    (∀ (r : Response) (it0 : Item),
      (parseFallback r it0).price
        = some (fallbackPrice r.fb.price1 r.fb.price2 r.fb.price3 r.fb.price4 r.fb.price5))
    ∧ (∀ a1 a2 a3 a4 a5 : Option String,
      fallbackPrice a1 a2 a3 a4 a5 = stripOrNone (firstYield [a1, a2, a3, a4, a5]))
    ∧ (∀ (as : List (Option String)) (s : String),
      firstYield as = some s → s.isEmpty = false)
    ∧ (∀ a1 a2 a3 a4 a5 b2 b3 b4 b5 : Option String, optStrTruthy a1 = true →
      fallbackPrice a1 a2 a3 a4 a5 = fallbackPrice a1 b2 b3 b4 b5)
    ∧ (∀ a1 a2 a3 a4 a5 b3 b4 b5 : Option String,
      optStrTruthy a1 = false → optStrTruthy a2 = true →
      fallbackPrice a1 a2 a3 a4 a5 = fallbackPrice a1 a2 b3 b4 b5)
    ∧ (∀ a1 a2 a3 a4 a5 b4 b5 : Option String,
      optStrTruthy a1 = false → optStrTruthy a2 = false → optStrTruthy a3 = true →
      fallbackPrice a1 a2 a3 a4 a5 = fallbackPrice a1 a2 a3 b4 b5)
    ∧ (∀ a1 a2 a3 a4 a5 b5 : Option String,
      optStrTruthy a1 = false → optStrTruthy a2 = false → optStrTruthy a3 = false →
      optStrTruthy a4 = true →
      fallbackPrice a1 a2 a3 a4 a5 = fallbackPrice a1 a2 a3 a4 b5) := by
  refine ⟨fun _ _ => rfl, ?_, ?_, ?_, ?_, ?_, ?_⟩
  · intro a1 a2 a3 a4 a5
    by_cases h1 : optStrTruthy a1 = true <;>
      by_cases h2 : optStrTruthy a2 = true <;>
        by_cases h3 : optStrTruthy a3 = true <;>
          by_cases h4 : optStrTruthy a4 = true <;>
            by_cases h5 : optStrTruthy a5 = true <;>
              simp [fallbackPrice, firstYield, h1, h2, h3, h4, h5, stripOrNone_falsy,
                stripOrNone_none]
  · intro as
    induction as with
    | nil =>
      intro s h
      exact Option.noConfusion h
    | cons a rest ih =>
      intro s h
      unfold firstYield at h
      by_cases ha : optStrTruthy a = true
      · rw [if_pos ha] at h
        subst h
        simpa [optStrTruthy] using ha
      · rw [if_neg ha] at h
        exact ih s h
  · intro a1 a2 a3 a4 a5 b2 b3 b4 b5 h1
    simp [fallbackPrice, h1]
  · intro a1 a2 a3 a4 a5 b3 b4 b5 h1 h2
    simp [fallbackPrice, h1, h2]
  · intro a1 a2 a3 a4 a5 b4 b5 h1 h2 h3
    simp [fallbackPrice, h1, h2, h3]
  · intro a1 a2 a3 a4 a5 b5 h1 h2 h3 h4
    simp [fallbackPrice, h1, h2, h3, h4]

/-- Witness for claim C8: with the first attempt yielding `$9.99` the
later attempts do not matter, and a concrete `firstYield` hypothesis is
discharged. -/
theorem claim_C8_witness :
    fallbackPrice (some "$9.99") Option.none Option.none Option.none Option.none
      = fallbackPrice (some "$9.99") (some "$1") (some "$2") (some "$3") (some "$4")
    ∧ "$1.50".isEmpty = false
    ∧ fallbackPrice Option.none (some "$8.88") Option.none Option.none Option.none
      = fallbackPrice Option.none (some "$8.88") (some "$7") (some "$6") (some "$5") :=
  ⟨claim_C8.2.2.2.1 (some "$9.99") Option.none Option.none Option.none Option.none
      (some "$1") (some "$2") (some "$3") (some "$4") rfl
  , claim_C8.2.2.1 [some "$1.50"] "$1.50" rfl
  , claim_C8.2.2.2.2.1 Option.none (some "$8.88") Option.none Option.none Option.none
      (some "$7") (some "$6") (some "$5") rfl rfl⟩

/-- Claim C4: in the HTML-fallback path every selector that matches
nothing yields a null or empty value for its field — `None` for the
product name, empty list for categories and images, empty dict for
specifications, empty string for the description, `None` for price and
discount price — and the record is still constructed and emitted
(`parse` returns `Except.ok` of the fallback record whenever the fallback
runs, whatever the selectors returned). -/
theorem claim_C4 (r : Response) (it0 : Item) :
    (r.fb.productName = Option.none → (parseFallback r it0).product_name = some PyValue.none)
    ∧ (r.fb.breadcrumbs = [] → (parseFallback r it0).categories = some (PyValue.list []))
    ∧ (r.fb.images = [] → (parseFallback r it0).images = some (PyValue.list []))
    ∧ (r.fb.specsLabels = [] → r.fb.specsFallbackTexts = [] →
        (parseFallback r it0).specifications = some (PyValue.dict []))
    ∧ (r.fb.descTexts1 = [] → r.fb.descTexts2 = [] → r.fb.metaDescription = Option.none →
        (parseFallback r it0).description = some (PyValue.str ""))
    ∧ (r.fb.price1 = Option.none → r.fb.price2 = Option.none → r.fb.price3 = Option.none →
        r.fb.price4 = Option.none → r.fb.price5 = Option.none →
        (parseFallback r it0).price = some PyValue.none)
    ∧ (r.fb.salePrice1 = Option.none → r.fb.salePrice2 = Option.none →
        (parseFallback r it0).discount_price = some PyValue.none)
    ∧ (r.initialStateScript = Option.none →
        parse r = Except.ok (parseFallback r (initItem r.url))) := by
  refine ⟨?_, ?_, ?_, ?_, ?_, ?_, ?_, ?_⟩
  · intro h
    simp [parseFallback, h]
  · intro h
    simp [parseFallback, h]
  · intro h
    simp [parseFallback, h]
  · intro h1 h2
    simp [parseFallback, dictFromPairs, h1, h2]
  · intro h1 h2 h3
    simp [parseFallback, anyNonBlank, h1, h2, h3]
  · intro h1 h2 h3 h4 h5
    simp [parseFallback, fallbackPrice, optStrTruthy, stripOrNone, h1, h2, h3, h4, h5]
  · intro h1 h2
    simp [parseFallback, pyOrStr, optStrTruthy, stripOrNone, h1, h2]
  · intro h
    unfold parse
    rw [h]

/-- Witness for claim C4 at the concrete all-empty response
`noScriptResp`: every field of the emitted fallback record is null or
empty and the record is still emitted. -/
theorem claim_C4_witness :
    (parseFallback noScriptResp emptyItem).product_name = some PyValue.none
    ∧ (parseFallback noScriptResp emptyItem).categories = some (PyValue.list [])
    ∧ (parseFallback noScriptResp emptyItem).images = some (PyValue.list [])
    ∧ (parseFallback noScriptResp emptyItem).specifications = some (PyValue.dict [])
    ∧ (parseFallback noScriptResp emptyItem).description = some (PyValue.str "")
    ∧ (parseFallback noScriptResp emptyItem).price = some PyValue.none
    ∧ (parseFallback noScriptResp emptyItem).discount_price = some PyValue.none
    ∧ parse noScriptResp = Except.ok (parseFallback noScriptResp (initItem noScriptResp.url)) :=
  ⟨(claim_C4 noScriptResp emptyItem).1 rfl
  , (claim_C4 noScriptResp emptyItem).2.1 rfl
  , (claim_C4 noScriptResp emptyItem).2.2.1 rfl
  , (claim_C4 noScriptResp emptyItem).2.2.2.1 rfl rfl
  , (claim_C4 noScriptResp emptyItem).2.2.2.2.1 rfl rfl rfl
  , (claim_C4 noScriptResp emptyItem).2.2.2.2.2.1 rfl rfl rfl rfl rfl
  , (claim_C4 noScriptResp emptyItem).2.2.2.2.2.2.1 rfl rfl
  , (claim_C4 noScriptResp emptyItem).2.2.2.2.2.2.2 rfl⟩

/-- Claim C6: the emitted `tcin_id` is always the TCIN extracted from the
response URL — the substring after the last occurrence of the marker
(slash, dash, slash, A, dash), truncated at the first `#` — and it is set
at line 41, before and independently of whether the JSON path or the
fallback path produces the rest of the record. -/
theorem claim_C6 :
    (∀ a b : String,
      containsSub markerSep b.data = false → containsSub hashSep b.data = false →
      extractTcin (a ++ "/-/A-" ++ b) = b)
    ∧ (∀ a b c : String,
      containsSub markerSep (b.data ++ '#' :: c.data) = false →
      containsSub hashSep b.data = false →
      extractTcin (a ++ "/-/A-" ++ b ++ "#" ++ c) = b)
    ∧ (∀ (r : Response) (it : Item), parse r = Except.ok it →
      it.tcin_id = some (PyValue.str (extractTcin r.url))) := by
  refine ⟨extractTcin_marker_nohash, extractTcin_marker_hash, ?_⟩
  intro r it h
  have hnone : r.initialStateScript = Option.none →
      parse r = Except.ok (parseFallback r (initItem r.url)) := by
    intro hx
    unfold parse
    rw [hx]
  have hsome : ∀ s, r.initialStateScript = some s →
      parse r = (match parseJsonPath r s (extractTcin r.url) with
        | Except.ok it1 => Except.ok it1
        | Except.error PyErr.jsonDecodeError => Except.ok (parseFallback r (initItem r.url))
        | Except.error PyErr.indexError => Except.ok (parseFallback r (initItem r.url))
        | Except.error e => Except.error e) := by
    intro s hx
    unfold parse
    rw [hx]
  cases hs : r.initialStateScript with
  | none =>
    rw [hnone hs] at h
    rw [← Except.ok.inj h]
    rfl
  | some s =>
    rw [hsome s hs] at h
    split at h
    · rename_i it1 heq
      obtain ⟨pfs, qfs, hb⟩ := parseJsonPath_ok r s (extractTcin r.url) it1 heq
      rw [← Except.ok.inj h, hb]
      rfl
    · rw [← Except.ok.inj h]
      rfl
    · rw [← Except.ok.inj h]
      rfl
    · exact Except.noConfusion h

/-- Witness for claim C6: the sample product URL from the repository
yields its TCIN, and on a concrete response the emitted record's
`tcin_id` is the TCIN of the response URL. -/
theorem claim_C6_witness :
    extractTcin ("https://www.target.com/p/hp-inc-essential-laptop" ++ "/-/A-" ++ "92469343"
        ++ "#" ++ "lnk=sametab") = "92469343"
    ∧ (parseFallback noScriptResp (initItem noScriptResp.url)).tcin_id
        = some (PyValue.str (extractTcin noScriptResp.url)) :=
  ⟨claim_C6.2.1 "https://www.target.com/p/hp-inc-essential-laptop" "92469343" "lnk=sametab"
      (by decide) (by decide)
  , claim_C6.2.2 noScriptResp (parseFallback noScriptResp (initItem noScriptResp.url)) rfl⟩
